import Mathlib

/-!
Verification of the RestaurantFinder popup core (popup.js) against its
specification.  JavaScript strings are modelled as `List Char`, byte
buffers (`Uint8Array`) as `List Nat` with elements `< 256`, and JSON
values (the results of `JSON.parse`) as the inductive type `Json`.
Asynchronous network calls are modelled by passing the environment's
HTTP responses as an explicit oracle; randomness (`crypto.getRandomValues`)
is modelled by passing the sampled random stream as an explicit argument.
-/

/-! ## JSON values and a model of `JSON.parse` -/

/-- A JSON value as produced by `JSON.parse`.  Numbers keep their source
literal (no claim compares numeric values, so the literal is enough). -/
inductive Json where
  | null : Json
  | bool (b : Bool) : Json
  | num (lit : List Char) : Json
  | str (s : List Char) : Json
  | arr (elems : List Json) : Json
  | obj (fields : List (List Char × Json)) : Json

/-- Skip JSON whitespace (space, tab, line feed, carriage return). -/
def jsonWs : List Char → List Char
  | [] => []
  | c :: rest =>
    if c = ' ' ∨ c = '\t' ∨ c = '\n' ∨ c = '\r' then jsonWs rest else c :: rest

/-- Value of a single JSON escape character (after a backslash). -/
def escChar : Char → Option Char
  | '"' => some '"'
  | '\\' => some '\\'
  | '/' => some '/'
  | 'b' => some (Char.ofNat 8)
  | 'f' => some (Char.ofNat 12)
  | 'n' => some '\n'
  | 'r' => some '\r'
  | 't' => some '\t'
  | _ => none

/-- Value of a hexadecimal digit, if the character is one. -/
def hexVal (c : Char) : Option Nat :=
  if '0' ≤ c ∧ c ≤ '9' then some (c.toNat - 48)
  else if 'a' ≤ c ∧ c ≤ 'f' then some (c.toNat - 87)
  else if 'A' ≤ c ∧ c ≤ 'F' then some (c.toNat - 55)
  else none

/-- Parse the body of a JSON string literal (after the opening quote),
returning the decoded characters and the input after the closing quote.
Unescaped control characters are a parse error, as in `JSON.parse`.
(`\uXXXX` yields the single code point `XXXX`; surrogate-pair joining is
not modelled — no claim exercises it.) -/
def parseStringBody : List Char → Option (List Char × List Char)
  | [] => none
  | '"' :: rest => some ([], rest)
  | '\\' :: 'u' :: h1 :: h2 :: h3 :: h4 :: rest =>
    match hexVal h1, hexVal h2, hexVal h3, hexVal h4 with
    | some a, some b, some c, some d =>
      match parseStringBody rest with
      | some (cs, r) => some (Char.ofNat (((a * 16 + b) * 16 + c) * 16 + d) :: cs, r)
      | none => none
    | _, _, _, _ => none
  | '\\' :: e :: rest =>
    match escChar e with
    | some d =>
      match parseStringBody rest with
      | some (cs, r) => some (d :: cs, r)
      | none => none
    | none => none
  | c :: rest =>
    if c.toNat < 32 then none
    else
      match parseStringBody rest with
      | some (cs, r) => some (c :: cs, r)
      | none => none

/-- Take a maximal run of decimal digits. -/
def takeDigits : List Char → List Char × List Char
  | [] => ([], [])
  | c :: rest =>
    if c.isDigit then
      let p := takeDigits rest
      (c :: p.1, p.2)
    else ([], c :: rest)

/-- JSON integer part: `0` or a nonzero digit followed by digits. -/
def parseIntPart : List Char → Option (List Char × List Char)
  | '0' :: rest => some (['0'], rest)
  | c :: rest =>
    if c.isDigit then
      let p := takeDigits rest
      some (c :: p.1, p.2)
    else none
  | [] => none

/-- JSON fraction part: optional, `.` followed by one or more digits. -/
def parseFracPart : List Char → Option (List Char × List Char)
  | '.' :: c :: rest =>
    if c.isDigit then
      let p := takeDigits rest
      some ('.' :: c :: p.1, p.2)
    else none
  | '.' :: [] => none
  | s => some ([], s)

/-- JSON exponent part: optional, `e`/`E`, optional sign, one or more digits. -/
def parseExpPart : List Char → Option (List Char × List Char)
  | [] => some ([], [])
  | c :: rest =>
    if c = 'e' ∨ c = 'E' then
      match rest with
      | [] => none
      | s :: r2 =>
        if s = '+' ∨ s = '-' then
          match r2 with
          | [] => none
          | d :: r3 =>
            if d.isDigit then
              let p := takeDigits r3
              some (c :: s :: d :: p.1, p.2)
            else none
        else if s.isDigit then
          let p := takeDigits r2
          some (c :: s :: p.1, p.2)
        else none
    else some ([], c :: rest)

/-- Unsigned JSON number (int, fraction, exponent), returning its literal. -/
def parseNumBody (s : List Char) : Option (List Char × List Char) :=
  match parseIntPart s with
  | none => none
  | some (i, r1) =>
    match parseFracPart r1 with
    | none => none
    | some (f, r2) =>
      match parseExpPart r2 with
      | none => none
      | some (x, r3) => some (i ++ f ++ x, r3)

/-- A JSON number literal with optional leading minus sign. -/
def parseNumber : List Char → Option (List Char × List Char)
  | '-' :: rest =>
    match parseNumBody rest with
    | some (lit, r) => some ('-' :: lit, r)
    | none => none
  | s => parseNumBody s

/-- Parser mode: a single value, array elements, or object members. -/
inductive PMode where
  | value : PMode
  | elems : PMode
  | members : PMode

/-- Parser intermediate result for the three modes. -/
inductive PRes where
  | v (j : Json) : PRes
  | es (l : List Json) : PRes
  | ms (l : List (List Char × Json)) : PRes

/-- Fuel-driven recursive-descent JSON parser (the fuel only guarantees
termination; `jsonParse` supplies enough for any input). -/
def parseF : Nat → PMode → List Char → Option (PRes × List Char)
  | 0, _, _ => none
  | Nat.succ fuel, PMode.value, s =>
    match s with
    | 'n' :: 'u' :: 'l' :: 'l' :: rest => some (PRes.v Json.null, rest)
    | 't' :: 'r' :: 'u' :: 'e' :: rest => some (PRes.v (Json.bool true), rest)
    | 'f' :: 'a' :: 'l' :: 's' :: 'e' :: rest => some (PRes.v (Json.bool false), rest)
    | '"' :: rest =>
      match parseStringBody rest with
      | some (cs, r) => some (PRes.v (Json.str cs), r)
      | none => none
    | '[' :: rest =>
      match jsonWs rest with
      | ']' :: r2 => some (PRes.v (Json.arr []), r2)
      | r1 =>
        match parseF fuel PMode.elems r1 with
        | some (PRes.es l, r2) => some (PRes.v (Json.arr l), r2)
        | _ => none
    | '{' :: rest =>
      match jsonWs rest with
      | '}' :: r2 => some (PRes.v (Json.obj []), r2)
      | r1 =>
        match parseF fuel PMode.members r1 with
        | some (PRes.ms l, r2) => some (PRes.v (Json.obj l), r2)
        | _ => none
    | _ =>
      match parseNumber s with
      | some (lit, rest) => some (PRes.v (Json.num lit), rest)
      | none => none
  | Nat.succ fuel, PMode.elems, s =>
    match parseF fuel PMode.value s with
    | some (PRes.v j, r) =>
      (match jsonWs r with
       | ',' :: r2 =>
         match parseF fuel PMode.elems (jsonWs r2) with
         | some (PRes.es l, r3) => some (PRes.es (j :: l), r3)
         | _ => none
       | ']' :: r2 => some (PRes.es [j], r2)
       | _ => none)
    | _ => none
  | Nat.succ fuel, PMode.members, s =>
    match s with
    | '"' :: rest =>
      match parseStringBody rest with
      | some (k, r1) =>
        (match jsonWs r1 with
         | ':' :: r2 =>
           match parseF fuel PMode.value (jsonWs r2) with
           | some (PRes.v j, r3) =>
             (match jsonWs r3 with
              | ',' :: r4 =>
                match parseF fuel PMode.members (jsonWs r4) with
                | some (PRes.ms l, r5) => some (PRes.ms ((k, j) :: l), r5)
                | _ => none
              | '}' :: r4 => some (PRes.ms [(k, j)], r4)
              | _ => none)
           | _ => none
         | _ => none)
      | none => none
    | _ => none

/-- Model of `JSON.parse text`: `some v` on success, `none` when
`JSON.parse` would throw. -/
def jsonParse (s : List Char) : Option Json :=
  match parseF (2 * s.length + 2) PMode.value (jsonWs s) with
  | some (PRes.v j, rest) => if jsonWs rest = [] then some j else none
  | _ => none

/-! ## Model of `JSON.stringify` (no spacing argument) -/

/-- Lower-case hexadecimal digit character. -/
def hexDigitChar (n : Nat) : Char := List.getD "0123456789abcdef".data n '0'

/-- Escape one character as inside a `JSON.stringify` string literal. -/
def escapeJsonChar (c : Char) : List Char :=
  if c = '"' then ['\\', '"']
  else if c = '\\' then ['\\', '\\']
  else if c = Char.ofNat 8 then ['\\', 'b']
  else if c = Char.ofNat 12 then ['\\', 'f']
  else if c = '\n' then ['\\', 'n']
  else if c = '\r' then ['\\', 'r']
  else if c = '\t' then ['\\', 't']
  else if c.toNat < 32 then
    ['\\', 'u', '0', '0', hexDigitChar (c.toNat / 16), hexDigitChar (c.toNat % 16)]
  else [c]

/-- A `JSON.stringify` string literal. -/
def quoteJsonString (s : List Char) : List Char :=
  '"' :: (s.flatMap escapeJsonChar ++ ['"'])

/-- Model of `JSON.stringify json` for parsed JSON values. -/
def jsonStringify : Json → List Char
  | Json.null => "null".data
  | Json.bool true => "true".data
  | Json.bool false => "false".data
  | Json.num lit => lit
  | Json.str s => quoteJsonString s
  | Json.arr xs =>
    '[' :: (List.intercalate [','] (xs.attach.map fun x => jsonStringify x.1) ++ [']'])
  | Json.obj kvs =>
    '{' :: (List.intercalate [','] (kvs.attach.map fun kv =>
      quoteJsonString kv.1.1 ++ [':'] ++ jsonStringify kv.1.2) ++ ['}'])
decreasing_by
  · have h1 := List.sizeOf_lt_of_mem x.2
    have h2 : sizeOf (Json.arr xs) = 1 + sizeOf xs := by simp
    omega
  · have h1 := List.sizeOf_lt_of_mem kv.2
    have h2 : sizeOf (Json.obj kvs) = 1 + sizeOf kvs := by simp
    have h3 : sizeOf kv.1.2 < sizeOf kv.1 := by
      cases h : kv.1 with | mk a b => simp [h]
    omega

/-! ## JavaScript dynamic-value helpers

The popup manipulates `JSON.parse` results as dynamic values: property
access (`x.key`, returning `undefined` — here `none` — when absent),
indexing, truthiness tests, and template-literal string coercion. -/

/-- Decimal rendering of a natural number. -/
def natLit (n : Nat) : List Char := (Nat.repr n).data

/-- JavaScript property access `j[key]` on a parsed JSON value:
object field lookup; `length` on arrays and strings; `undefined`
(i.e. `none`) otherwise. -/
def jsGet (j : Json) (key : List Char) : Option Json :=
  match j with
  | Json.obj fields => (fields.find? fun kv => kv.1 = key).map fun kv => kv.2
  | Json.arr xs => if key = "length".data then some (Json.num (natLit xs.length)) else none
  | Json.str s => if key = "length".data then some (Json.num (natLit s.length)) else none
  | _ => none

/-- JavaScript numeric indexing `j[i]` on a parsed JSON value. -/
def jsIndex (j : Json) (i : Nat) : Option Json :=
  match j with
  | Json.arr xs => xs.get? i
  | Json.str s => (s.get? i).map fun c => Json.str [c]
  | Json.obj fields => (fields.find? fun kv => kv.1 = natLit i).map fun kv => kv.2
  | _ => none

/-- Is the mantissa of a JSON number literal all zeros (value 0)? -/
def numLitIsZero (lit : List Char) : Bool :=
  (lit.takeWhile fun c => !(c == 'e' || c == 'E')).all fun c =>
    c == '-' || c == '0' || c == '.'

/-- JavaScript truthiness of a possibly-`undefined` parsed JSON value. -/
def jsTruthy : Option Json → Bool
  | none => false
  | some Json.null => false
  | some (Json.bool b) => b
  | some (Json.num lit) => !numLitIsZero lit
  | some (Json.str s) => !s.isEmpty
  | some (Json.arr _) => true
  | some (Json.obj _) => true

/-- JavaScript template-literal coercion of a parsed JSON value, as a
template literal would stringify it. -/
def jsTemplateString : Json → List Char
  | Json.null => "null".data
  | Json.bool true => "true".data
  | Json.bool false => "false".data
  | Json.num lit => lit
  | Json.str s => s
  | Json.arr xs => List.intercalate [','] (xs.attach.map fun x => jsTemplateString x.1)
  | Json.obj _ => "[object Object]".data
decreasing_by
  have h1 := List.sizeOf_lt_of_mem x.2
  have h2 : sizeOf (Json.arr xs) = 1 + sizeOf xs := by simp
  omega

/-- Probe `json?.output?.[0]?.content?.[0]?.text` (popup.js line 143),
the shape shared by the candidate-level and top-level output probes. -/
def topOutputProbe (json : Json) : Option Json :=
  let t := ((((jsGet json "output".data).bind fun o => jsIndex o 0).bind fun o0 =>
    jsGet o0 "content".data).bind fun c => jsIndex c 0).bind fun c0 =>
      jsGet c0 "text".data
  if jsTruthy t then t else none

/-! ## `extractTextFromApiResponse` (popup.js lines 132-146) -/

/-- Faithful transcription of `extractTextFromApiResponse`: probe the
known envelope shapes in order and return the first hit.  (The source's
`try/catch` never fires on envelopes whose probed containers are genuine
arrays, the only ones any claim uses; a mid-chain `TypeError` aborting
the remaining probes is not modelled.) -/
def extractTextFromApiResponse (json : Json) : Option Json :=
  let cands := jsGet json "candidates".data
  if jsTruthy (cands.bind fun c => jsGet c "length".data) then
    -- const cand = json.candidates[0];
    let cand := cands.bind fun c => jsIndex c 0
    let parts := (cand.bind fun c => jsGet c "content".data).bind fun c => jsGet c "parts".data
    match
      (if jsTruthy (parts.bind fun p => jsGet p "length".data) then
        (parts.bind fun p => jsIndex p 0).bind fun p0 => jsGet p0 "text".data
      else none) with
    | some (Json.str t) => some (Json.str t)
    | _ =>
      let content := cand.bind fun c => jsGet c "content".data
      let parts2 := (content.bind fun c => jsIndex c 0).bind fun c0 => jsGet c0 "parts".data
      match
        (if jsTruthy (content.bind fun c => jsGet c "length".data) &&
            jsTruthy (parts2.bind fun p => jsGet p "length".data) then
          (parts2.bind fun p => jsIndex p 0).bind fun p0 => jsGet p0 "text".data
        else none) with
      | some (Json.str t) => some (Json.str t)
      | _ =>
        let t3 := ((((cand.bind fun c => jsGet c "output".data).bind fun o =>
          jsIndex o 0).bind fun o0 => jsGet o0 "content".data).bind fun c =>
            jsIndex c 0).bind fun c0 => jsGet c0 "text".data
        if jsTruthy t3 then t3
        else
          match cand.bind fun c => jsGet c "text".data with
          | some (Json.str t) => some (Json.str t)
          | _ => topOutputProbe json
  else topOutputProbe json

/-! ## `extractFirstJson` (popup.js lines 149-178) -/

/-- The scanning loop of `extractFirstJson` (lines 156-176).  `sub` is
`text` from the first brace on, `j` the offset of the current character
within `sub`, `rest` the characters still to scan.  The comparison
`[ch] = ['\\', '\\']` transcribes the source's `ch === '\\\\'`: the
single character `ch` compared against a two-character string. -/
def efjLoop (sub : List Char) : Nat → List Char → Int → Bool → Bool →
    Option (List Char × Json)
  | _, [], _, _, _ => none
  | j, ch :: rest, depth, inString, escape =>
    if escape then efjLoop sub (j + 1) rest depth inString false
    else if [ch] = ['\\', '\\'] then efjLoop sub (j + 1) rest depth inString true
    else if ch = '"' then efjLoop sub (j + 1) rest depth (!inString) escape
    else if inString then efjLoop sub (j + 1) rest depth inString escape
    else
      let depth1 := if ch = '{' then depth + 1 else depth
      if ch = '}' then
        let depth2 := depth1 - 1
        if depth2 = 0 then
          match jsonParse (sub.take (j + 1)) with
          | some parsed => some (sub.take (j + 1), parsed)
          | none => efjLoop sub (j + 1) rest depth2 inString escape
        else efjLoop sub (j + 1) rest depth2 inString escape
      else efjLoop sub (j + 1) rest depth1 inString escape

/-- `extractFirstJson` on a string: find the first `{` and scan from
there; `none` when the text is empty (falsy) or has no `{`. -/
def extractFirstJsonStr (text : List Char) : Option (List Char × Json) :=
  if text = [] then none
  else
    match List.findIdx? (fun c => c = '{') text with
    | none => none
    | some start => efjLoop (text.drop start) 0 (text.drop start) 0 false false

/-- `extractFirstJson` on a dynamic value: the source first checks
`typeof text !== 'string'`. -/
def extractFirstJson (text : Json) : Option (List Char × Json) :=
  match text with
  | Json.str s => extractFirstJsonStr s
  | _ => none

/-! ## `callGemini` and the suggestion pipeline (popup.js lines 181-256)

The network is modelled as an oracle mapping the index of the request
(0, 1, 2 within one `fetchRestaurantSuggestions` run) to the HTTP
response the endpoint produced.  The prompt strings are built exactly as
the source builds them and sent with the request; they do not influence
the modelled response, which the environment supplies. -/

/-- An HTTP response as `fetch` delivers it: status, status text and the
body text (`res.text()`; `res.json()` is `jsonParse` of it). -/
structure HttpResponse where
  status : Nat
  statusText : List Char
  bodyText : List Char

/-- `res.ok`: status in the inclusive range 200-299. -/
def resOk (r : HttpResponse) : Prop := 200 ≤ r.status ∧ r.status ≤ 299

instance (r : HttpResponse) : Decidable (resOk r) := by
  unfold resOk; infer_instance

/-- The errors the pipeline can raise: the transport error thrown in
`callGemini` (line 191, carrying its message string) and the
`SyntaxError` thrown by `res.json()` on an unparseable success body. -/
inductive JsError where
  | transport (msg : List Char) : JsError
  | jsonSyntax : JsError

/-- The message of the error thrown on a non-ok response (line 191):
`Gemini HTTP ${res.status} ${res.statusText}${t? ' — '+t.slice(0,400):''}`.
An empty body text is falsy, so it adds no suffix. -/
def transportErrMsg (r : HttpResponse) : List Char :=
  "Gemini HTTP ".data ++ natLit r.status ++ [' '] ++ r.statusText ++
    (if r.bodyText = [] then [] else " — ".data ++ r.bodyText.take 400)

/-- Body of `callGemini` after the request was answered with `resp`:
throw on non-ok status; otherwise parse the envelope and return the
extracted text, falling back to the stringified envelope. -/
def callGeminiResult (resp : HttpResponse) : Except JsError Json :=
  if resOk resp then
    match jsonParse resp.bodyText with
    | none => Except.error JsError.jsonSyntax
    | some envelope =>
      match extractTextFromApiResponse envelope with
      | some t => Except.ok t
      | none => Except.ok (Json.str (jsonStringify envelope))
  else Except.error (JsError.transport (transportErrMsg resp))

/-- `callGemini(promptText, model, apiKey)` with the environment's
response passed explicitly.  The prompt only shapes the request. -/
def callGemini (promptText : List Char) (resp : HttpResponse) : Except JsError Json :=
  let _request := promptText
  callGeminiResult resp

/-- Prompt of attempt 1 (lines 201-221). -/
def basePrompt (city food : List Char) : List Char :=
  "Return STRICT JSON ONLY — nothing else. Structure must match EXACTLY:\n\n\x7b\n  \"foodDescription\": \"short description (1-2 sentences)\",\n  \"restaurants\": [\n    \x7b\n      \"name\": \"restaurant name\",\n      \"address\": \"address string\",\n      \"googleMap\": \"https://maps.google.com/....\",\n      \"reasons\": [\"reason1\",\"reason2\",\"reason3\",\"reason4\"]\n    \x7d,\n    \x7b\n      \"name\": \"restaurant name\",\n      \"address\": \"address string\",\n      \"googleMap\": \"https://maps.google.com/....\",\n      \"reasons\": [\"reason1\",\"reason2\",\"reason3\",\"reason4\"]\n    \x7d\n  ]\n\x7d\n\nNow: Provide the best two restaurants in ".data ++
    city ++ " for the food item \"".data ++ food ++
    "\". Keep each reason <= 12 words. Keep addresses concise. Do NOT include any explanatory text or extra fields.".data

/-- The length-capped raw text embedded into the reformat prompt
(line 233); on a non-string value `.length` is undefined, the comparison
is false and the value passes through unchanged. -/
def rawSnippetOf (t : Json) : Json :=
  match t with
  | Json.str s =>
    if 8000 < s.length then Json.str (s.take 8000 ++ "...[truncated]".data)
    else Json.str s
  | other => other

/-- Prompt of attempt 2 (lines 234-238). -/
def reformatPrompt (rawSnippet : Json) : List Char :=
  "The previous response (not valid JSON) is below. Reformat it into VALID JSON matching the exact schema and nothing else (no commentary):\n\n-----BEGIN PREVIOUS RESPONSE-----\n".data ++
    jsTemplateString rawSnippet ++ "\n-----END PREVIOUS RESPONSE-----".data

/-- Prompt of attempt 3 (lines 246-248). -/
def strictPrompt (city food : List Char) : List Char :=
  "Produce ONLY valid JSON with schema:\n\x7b\"foodDescription\":\"string\",\"restaurants\":[\x7b\"name\":\"string\",\"address\":\"string\",\"googleMap\":\"string\",\"reasons\":[\"s\",\"s\",\"s\",\"s\"]\x7d,\x7b\"name\":\"string\",\"address\":\"string\",\"googleMap\":\"string\",\"reasons\":[\"s\",\"s\",\"s\",\"s\"]\x7d]\x7d\nNow provide values for city: ".data ++
    city ++ " and food: ".data ++ food ++ ['.']

/-- The pipeline's result: a parsed structured object (returned as
`extracted.parsed`) or the raw-fallback object `{ __raw: attempt1.text }`
carrying attempt 1's text. -/
inductive FetchOutcome where
  | parsed (j : Json) : FetchOutcome
  | rawFallback (t : Json) : FetchOutcome

/-- `fetchRestaurantSuggestions(city, food, model, apiKey)` (lines
200-256), with the environment's responses passed as the oracle
`responses`.  The second component counts the endpoint calls made. -/
def fetchRestaurantSuggestions (city food : List Char)
    (responses : Nat → HttpResponse) : Except JsError FetchOutcome × Nat :=
  match callGemini (basePrompt city food) (responses 0) with
  | Except.error e => (Except.error e, 1)
  | Except.ok t1 =>
    match extractFirstJson t1 with
    | some pr => (Except.ok (FetchOutcome.parsed pr.2), 1)
    | none =>
      match callGemini (reformatPrompt (rawSnippetOf t1)) (responses 1) with
      | Except.error e => (Except.error e, 2)
      | Except.ok t2 =>
        match extractFirstJson t2 with
        | some pr => (Except.ok (FetchOutcome.parsed pr.2), 2)
        | none =>
          match callGemini (strictPrompt city food) (responses 2) with
          | Except.error e => (Except.error e, 3)
          | Except.ok t3 =>
            match extractFirstJson t3 with
            | some pr => (Except.ok (FetchOutcome.parsed pr.2), 3)
            | none => (Except.ok (FetchOutcome.rawFallback t1), 3)

/-! ## Credential vault (popup.js lines 20-78)

The Web Crypto primitives (`crypto.subtle`, `TextEncoder`, `btoa`) are
platform code outside this repository; where their internals are not in
src they are modelled from the spec, faithfully to their interfaces. -/

/-- The Unicode replacement character U+FFFD. -/
def replacementChar : Char := Char.ofNat 0xFFFD

/-- UTF-8 encoding of one character (standard 1-4 byte layout);
`TextEncoder` is exactly UTF-8. -/
def utf8EncodeChar (c : Char) : List Nat :=
  let n := c.toNat
  if n < 0x80 then [n]
  else if n < 0x800 then [0xC0 + n / 64, 0x80 + n % 64]
  else if n < 0x10000 then [0xE0 + n / 4096, 0x80 + n / 64 % 64, 0x80 + n % 64]
  else [0xF0 + n / 262144, 0x80 + n / 4096 % 64, 0x80 + n / 64 % 64, 0x80 + n % 64]

/-- `new TextEncoder().encode(s)`: UTF-8 bytes of the string. -/
def utf8Encode (s : List Char) : List Nat := s.flatMap utf8EncodeChar

/-- One step of lenient UTF-8 decoding: decode the scalar starting with
byte `b0` (continuation bytes in `rest`), returning the character (U+FFFD
for malformed sequences, as `TextDecoder` emits by default) and the
remaining bytes. -/
def utf8DecodeStep (b0 : Nat) (rest : List Nat) : Char × List Nat :=
  if b0 < 0x80 then (Char.ofNat b0, rest)
  else if b0 < 0xC0 then (replacementChar, rest)
  else if b0 < 0xE0 then
    match rest with
    | [] => (replacementChar, [])
    | b1 :: rest1 =>
      if 0x80 ≤ b1 ∧ b1 < 0xC0 then
        (Char.ofNat ((b0 - 0xC0) * 64 + (b1 - 0x80)), rest1)
      else (replacementChar, b1 :: rest1)
  else if b0 < 0xF0 then
    match rest with
    | b1 :: b2 :: rest2 =>
      if (0x80 ≤ b1 ∧ b1 < 0xC0) ∧ (0x80 ≤ b2 ∧ b2 < 0xC0) then
        (Char.ofNat (((b0 - 0xE0) * 64 + (b1 - 0x80)) * 64 + (b2 - 0x80)), rest2)
      else (replacementChar, b1 :: b2 :: rest2)
    | other => (replacementChar, other)
  else
    match rest with
    | b1 :: b2 :: b3 :: rest3 =>
      if (0x80 ≤ b1 ∧ b1 < 0xC0) ∧ (0x80 ≤ b2 ∧ b2 < 0xC0) ∧
          (0x80 ≤ b3 ∧ b3 < 0xC0) then
        (Char.ofNat ((((b0 - 0xF0) * 64 + (b1 - 0x80)) * 64 + (b2 - 0x80)) * 64 +
          (b3 - 0x80)), rest3)
      else (replacementChar, b1 :: b2 :: b3 :: rest3)
    | other => (replacementChar, other)

/-- `new TextDecoder().decode(bytes)`: lenient UTF-8 decoding. -/
def utf8Decode : List Nat → List Char
  | [] => []
  | b0 :: rest =>
    (utf8DecodeStep b0 rest).1 :: utf8Decode (utf8DecodeStep b0 rest).2
termination_by l => l.length
decreasing_by
  simp only [List.length_cons]
  refine Nat.lt_succ_of_le ?_
  unfold utf8DecodeStep
  split_ifs <;> try simp
  all_goals (split <;> (try split_ifs) <;> simp_arith [List.length])

/-- The base64 alphabet used by `btoa`. -/
def b64Alphabet : List Char :=
  "ABCDEFGHIJKLMNOPQRSTUVWXYZabcdefghijklmnopqrstuvwxyz0123456789+/".data

/-- Character for one sextet. -/
def b64Char (s : Nat) : Char := b64Alphabet.getD s 'A'

/-- Sextet of one alphabet character (0 for characters outside the
alphabet; the model is only applied to `base64Encode` output). -/
def b64Val (c : Char) : Nat := (b64Alphabet.findIdx? fun d => d = c).getD 0

/-- `base64Encode` (popup.js lines 20-30): `btoa` of the binary string of
the bytes.  The source's 0x8000-element chunking only avoids an argument
limit of `String.fromCharCode` and concatenates to the same string. -/
def base64Encode : List Nat → List Char
  | [] => []
  | [a] => [b64Char (a / 4), b64Char (a % 4 * 16), '=', '=']
  | [a, b] => [b64Char (a / 4), b64Char (a % 4 * 16 + b / 16), b64Char (b % 16 * 4), '=']
  | a :: b :: c :: rest =>
    b64Char (a / 4) :: b64Char (a % 4 * 16 + b / 16) :: b64Char (b % 16 * 4 + c / 64) ::
      b64Char (c % 64) :: base64Encode rest

/-- `base64Decode` (popup.js lines 31-37): `atob` then `charCodeAt` per
position (on well-formed input; `atob` validation is not modelled). -/
def base64Decode : List Char → List Nat
  | c1 :: c2 :: c3 :: c4 :: rest =>
    if c3 = '=' then [b64Val c1 * 4 + b64Val c2 / 16]
    else if c4 = '=' then
      [b64Val c1 * 4 + b64Val c2 / 16, b64Val c2 % 16 * 16 + b64Val c3 / 4]
    else
      (b64Val c1 * 4 + b64Val c2 / 16) :: (b64Val c2 % 16 * 16 + b64Val c3 / 4) ::
        (b64Val c3 % 4 * 64 + b64Val c4) :: base64Decode rest
  | _ => []

/-- Modelled from the spec: the 256-bit AES-GCM key produced by
`crypto.subtle.deriveKey` from PBKDF2 over the passphrase and salt.
PBKDF2 is idealised as a collision-free derivation, so the key record
keeps the raw inputs (`keyBytes` is the imported passphrase encoding,
`salt` the PBKDF2 salt) together with the derivation parameters the
source requests. -/
structure CryptoKeyModel where
  keyBytes : List Nat
  salt : List Nat
  iterations : Nat
  hashSha256 : Bool
  algAesGcm : Bool
  keyLength : Nat

/-- `deriveKeyFromPassphrase` (popup.js lines 40-56): import the UTF-8
passphrase bytes and derive an AES-GCM-256 key via PBKDF2 with 200000
iterations of SHA-256. -/
def deriveKeyFromPassphrase (passphrase : List Char) (saltUint8 : List Nat) :
    CryptoKeyModel :=
  { keyBytes := utf8Encode passphrase
    salt := saltUint8
    iterations := 200000
    hashSha256 := true
    algAesGcm := true
    keyLength := 256 }

/-- Unary framing of one number: `n` zero bytes, then terminator 254. -/
def encNat (n : Nat) : List Nat := List.replicate n 0 ++ [254]

/-- Framing of a list of numbers, closed by terminator 255. -/
def encNatList (l : List Nat) : List Nat := l.flatMap encNat ++ [255]

/-- Decoder for `encNatList` framing: accumulate zeros into `acc`,
close a number at 254, close the list at 255, rejecting anything else. -/
def decListAux (acc : Nat) (nums : List Nat) :
    List Nat → Option (List Nat × List Nat)
  | [] => none
  | b :: rest =>
    if b = 0 then decListAux (acc + 1) nums rest
    else if b = 254 then decListAux 0 (nums ++ [acc]) rest
    else if b = 255 then (if acc = 0 then some (nums, rest) else none)
    else none

/-- Decode one framed list, returning it and the remaining bytes. -/
def decList (bs : List Nat) : Option (List Nat × List Nat) := decListAux 0 [] bs

/-- Modelled from the spec: `crypto.subtle.encrypt({name:'AES-GCM', iv},
key, data)`.  The AEAD is idealised functionally: the ciphertext is an
injective byte encoding of (key identity, iv, plaintext), which gives the
AEAD its two spec-visible properties — decryption with the same key and
iv restores the plaintext, and any other key fails authentication. -/
def subtleEncrypt (iv : List Nat) (key : CryptoKeyModel) (data : List Nat) :
    List Nat :=
  encNatList key.keyBytes ++ encNatList key.salt ++ encNatList iv ++ encNatList data

/-- Modelled from the spec: `crypto.subtle.decrypt({name:'AES-GCM', iv},
key, cipher)`; `none` is the rejected promise (`AuthenticationError`,
the AEAD tag check failing). -/
def subtleDecrypt (iv : List Nat) (key : CryptoKeyModel) (cipherBytes : List Nat) :
    Option (List Nat) :=
  match decList cipherBytes with
  | none => none
  | some (kb, r1) =>
    match decList r1 with
    | none => none
    | some (st, r2) =>
      match decList r2 with
      | none => none
      | some (ivv, r3) =>
        match decList r3 with
        | none => none
        | some (pt, r4) =>
          if r4 = [] ∧ kb = key.keyBytes ∧ st = key.salt ∧ ivv = iv then some pt
          else none

/-- The stored object `{ ciphertext, iv, salt }` of base64 strings. -/
structure StoredKey where
  ciphertext : List Char
  iv : List Char
  salt : List Char

/-- `crypto.getRandomValues(new Uint8Array(n))`, reading `n` bytes of
the random stream `rng` starting at offset `off`. -/
def randomBytes (rng : Nat → Nat) (off n : Nat) : List Nat :=
  (List.range n).map fun i => rng (off + i) % 256

/-- `encryptApiKey` (popup.js lines 58-69): fresh 16-byte salt and
12-byte iv from the random stream, PBKDF2-derived key, AES-GCM
encryption of the UTF-8 plaintext, all fields base64-encoded. -/
def encryptApiKey (apiKeyPlain passphrase : List Char) (rng : Nat → Nat) :
    StoredKey :=
  let salt := randomBytes rng 0 16
  let iv := randomBytes rng 16 12
  let key := deriveKeyFromPassphrase passphrase salt
  let cipherBuffer := subtleEncrypt iv key (utf8Encode apiKeyPlain)
  { ciphertext := base64Encode cipherBuffer
    iv := base64Encode iv
    salt := base64Encode salt }

/-- `decryptApiKey` (popup.js lines 71-78): decode the stored fields,
re-derive the key from the stored salt and the supplied passphrase, and
attempt authenticated decryption; `none` is the rejected promise. -/
def decryptApiKey (encryptedObj : StoredKey) (passphrase : List Char) :
    Option (List Char) :=
  let salt := base64Decode encryptedObj.salt
  let iv := base64Decode encryptedObj.iv
  let cipher := base64Decode encryptedObj.ciphertext
  let key := deriveKeyFromPassphrase passphrase salt
  (subtleDecrypt iv key cipher).map utf8Decode

/-! ## Concrete environments used by the verification -/

/-- A success response whose extracted text contains no JSON object. -/
def respUnparseable : HttpResponse :=
  { status := 200
    statusText := "OK".data
    bodyText := ("\x7b\"candidates\":[\x7b\"text\":\"no json here\"\x7d]\x7d").data }

/-- A success response whose extracted text contains only the empty
JSON object, which lacks every schema field. -/
def respEmptyObj : HttpResponse :=
  { status := 200
    statusText := "OK".data
    bodyText := ("\x7b\"candidates\":[\x7b\"text\":\"ok \x7b\x7d done\"\x7d]\x7d").data }

/-- A rate-limited response (HTTP 429). -/
def respHttp429 : HttpResponse :=
  { status := 429
    statusText := "Too Many Requests".data
    bodyText := "rate limited".data }

/-! ## Helper lemmas -/

theorem utf8Decode_cons (c : Char) (rest : List Nat) :
    utf8Decode (utf8EncodeChar c ++ rest) = c :: utf8Decode rest := by
  have hv := Char.ofNat_toNat c
  rcases Nat.lt_or_ge c.toNat 0x80 with h1 | h1
  · have henc : utf8EncodeChar c = [c.toNat] := by rw [utf8EncodeChar, if_pos h1]
    have hstep : utf8DecodeStep c.toNat rest = (c, rest) := by
      simp [utf8DecodeStep, h1, hv]
    rw [henc, List.cons_append, List.nil_append, utf8Decode, hstep]
  · rcases Nat.lt_or_ge c.toNat 0x800 with h2 | h2
    · have henc : utf8EncodeChar c = [0xC0 + c.toNat / 64, 0x80 + c.toNat % 64] := by
        rw [utf8EncodeChar, if_neg (by omega), if_pos h2]
      have hstep : utf8DecodeStep (0xC0 + c.toNat / 64) ((0x80 + c.toNat % 64) :: rest)
          = (c, rest) := by
        have hb1 : ¬ (0xC0 + c.toNat / 64 < 0x80) := by omega
        have hb2 : ¬ (0xC0 + c.toNat / 64 < 0xC0) := by omega
        have hb3 : 0xC0 + c.toNat / 64 < 0xE0 := by omega
        have hb4 : 0x80 ≤ 0x80 + c.toNat % 64 ∧ 0x80 + c.toNat % 64 < 0xC0 := by omega
        have harith : (0xC0 + c.toNat / 64 - 0xC0) * 64 + (0x80 + c.toNat % 64 - 0x80)
            = c.toNat := by omega
        have harith2 : c.toNat / 64 * 64 + c.toNat % 64 = c.toNat := by omega
        simp [utf8DecodeStep, hb1, hb2, hb3, hb4, harith, harith2, hv]
      rw [henc, List.cons_append, List.cons_append, List.nil_append, utf8Decode, hstep]
    · rcases Nat.lt_or_ge c.toNat 0x10000 with h3 | h3
      · have henc : utf8EncodeChar c =
            [0xE0 + c.toNat / 4096, 0x80 + c.toNat / 64 % 64, 0x80 + c.toNat % 64] := by
          rw [utf8EncodeChar, if_neg (by omega), if_neg (by omega), if_pos h3]
        have hstep : utf8DecodeStep (0xE0 + c.toNat / 4096)
            ((0x80 + c.toNat / 64 % 64) :: (0x80 + c.toNat % 64) :: rest)
            = (c, rest) := by
          have hb1 : ¬ (0xE0 + c.toNat / 4096 < 0x80) := by omega
          have hb2 : ¬ (0xE0 + c.toNat / 4096 < 0xC0) := by omega
          have hb3 : ¬ (0xE0 + c.toNat / 4096 < 0xE0) := by omega
          have hb4 : 0xE0 + c.toNat / 4096 < 0xF0 := by omega
          have hb5 : (0x80 ≤ 0x80 + c.toNat / 64 % 64 ∧ 0x80 + c.toNat / 64 % 64 < 0xC0) ∧
              0x80 ≤ 0x80 + c.toNat % 64 ∧ 0x80 + c.toNat % 64 < 0xC0 := by omega
          have harith : ((0xE0 + c.toNat / 4096 - 0xE0) * 64 +
              (0x80 + c.toNat / 64 % 64 - 0x80)) * 64 + (0x80 + c.toNat % 64 - 0x80)
              = c.toNat := by omega
          have harith2 : (c.toNat / 4096 * 64 + c.toNat / 64 % 64) * 64 + c.toNat % 64
              = c.toNat := by omega
          simp [utf8DecodeStep, hb1, hb2, hb3, hb4, hb5, harith, harith2, hv]
        rw [henc, List.cons_append, List.cons_append, List.cons_append,
          List.nil_append, utf8Decode, hstep]
      · have henc : utf8EncodeChar c = [0xF0 + c.toNat / 262144,
            0x80 + c.toNat / 4096 % 64, 0x80 + c.toNat / 64 % 64,
            0x80 + c.toNat % 64] := by
          rw [utf8EncodeChar, if_neg (by omega), if_neg (by omega), if_neg (by omega)]
        have hstep : utf8DecodeStep (0xF0 + c.toNat / 262144)
            ((0x80 + c.toNat / 4096 % 64) :: (0x80 + c.toNat / 64 % 64) ::
              (0x80 + c.toNat % 64) :: rest) = (c, rest) := by
          have hb1 : ¬ (0xF0 + c.toNat / 262144 < 0x80) := by omega
          have hb2 : ¬ (0xF0 + c.toNat / 262144 < 0xC0) := by omega
          have hb3 : ¬ (0xF0 + c.toNat / 262144 < 0xE0) := by omega
          have hb4 : ¬ (0xF0 + c.toNat / 262144 < 0xF0) := by omega
          have hb5 : (0x80 ≤ 0x80 + c.toNat / 4096 % 64 ∧
              0x80 + c.toNat / 4096 % 64 < 0xC0) ∧
              (0x80 ≤ 0x80 + c.toNat / 64 % 64 ∧ 0x80 + c.toNat / 64 % 64 < 0xC0) ∧
              0x80 ≤ 0x80 + c.toNat % 64 ∧ 0x80 + c.toNat % 64 < 0xC0 := by omega
          have harith : (((0xF0 + c.toNat / 262144 - 0xF0) * 64 +
              (0x80 + c.toNat / 4096 % 64 - 0x80)) * 64 +
              (0x80 + c.toNat / 64 % 64 - 0x80)) * 64 + (0x80 + c.toNat % 64 - 0x80)
              = c.toNat := by omega
          have harith2 : ((c.toNat / 262144 * 64 + c.toNat / 4096 % 64) * 64 +
              c.toNat / 64 % 64) * 64 + c.toNat % 64 = c.toNat := by omega
          simp [utf8DecodeStep, hb1, hb2, hb3, hb4, hb5, harith, harith2, hv]
        rw [henc, List.cons_append, List.cons_append, List.cons_append,
          List.cons_append, List.nil_append, utf8Decode, hstep]

theorem utf8Decode_utf8Encode (s : List Char) : utf8Decode (utf8Encode s) = s := by
  induction s with
  | nil =>
    rw [show utf8Encode [] = ([] : List Nat) from rfl]
    rw [utf8Decode]
  | cons c cs ih =>
    rw [utf8Encode, List.flatMap_cons]
    rw [show cs.flatMap utf8EncodeChar = utf8Encode cs from rfl]
    rw [utf8Decode_cons, ih]

theorem utf8Encode_inj {s1 s2 : List Char} (h : utf8Encode s1 = utf8Encode s2) :
    s1 = s2 := by
  have h1 := utf8Decode_utf8Encode s1
  rw [h, utf8Decode_utf8Encode] at h1
  exact h1.symm

theorem b64Val_b64Char : ∀ s < 64, b64Val (b64Char s) = s := by decide

theorem b64Char_ne_eq : ∀ s < 64, b64Char s ≠ '=' := by decide

theorem base64_roundtrip : ∀ l : List Nat, (∀ b ∈ l, b < 256) →
    base64Decode (base64Encode l) = l
  | [] => fun _ => rfl
  | [a] => fun h => by
    have ha : a < 256 := h a (by simp)
    rw [base64Encode, base64Decode]
    rw [if_pos rfl]
    rw [b64Val_b64Char _ (by omega), b64Val_b64Char _ (by omega)]
    have : a / 4 * 4 + a % 4 * 16 / 16 = a := by omega
    rw [this]
  | [a, b] => fun h => by
    have ha : a < 256 := h a (by simp)
    have hb : b < 256 := h b (by simp)
    rw [base64Encode, base64Decode]
    rw [if_neg (b64Char_ne_eq _ (by omega)), if_pos rfl]
    rw [b64Val_b64Char _ (by omega), b64Val_b64Char _ (by omega),
      b64Val_b64Char _ (by omega)]
    have e1 : a / 4 * 4 + (a % 4 * 16 + b / 16) / 16 = a := by omega
    have e2 : (a % 4 * 16 + b / 16) % 16 * 16 + b % 16 * 4 / 4 = b := by omega
    rw [e1, e2]
  | a :: b :: c :: rest => fun h => by
    have ha : a < 256 := h a (by simp)
    have hb : b < 256 := h b (by simp)
    have hc : c < 256 := h c (by simp)
    have ih := base64_roundtrip rest fun x hx => h x (by simp [hx])
    rw [base64Encode, base64Decode]
    rw [if_neg (b64Char_ne_eq _ (by omega)), if_neg (b64Char_ne_eq _ (by omega))]
    rw [b64Val_b64Char _ (by omega), b64Val_b64Char _ (by omega),
      b64Val_b64Char _ (by omega), b64Val_b64Char _ (by omega)]
    have e1 : a / 4 * 4 + (a % 4 * 16 + b / 16) / 16 = a := by omega
    have e2 : (a % 4 * 16 + b / 16) % 16 * 16 + (b % 16 * 4 + c / 64) / 4 = b := by omega
    have e3 : (b % 16 * 4 + c / 64) % 4 * 64 + c % 64 = c := by omega
    rw [e1, e2, e3, ih]

theorem decListAux_replicate (n : Nat) :
    ∀ (acc : Nat) (nums t : List Nat),
    decListAux acc nums (List.replicate n 0 ++ t) = decListAux (acc + n) nums t := by
  induction n with
  | zero => intro acc nums t; simp
  | succ m ih =>
    intro acc nums t
    rw [List.replicate_succ, List.cons_append, decListAux]
    rw [if_pos rfl, ih]
    congr 1
    omega

theorem decListAux_flatMap : ∀ (l : List Nat) (nums t : List Nat),
    decListAux 0 nums (l.flatMap encNat ++ t) = decListAux 0 (nums ++ l) t
  | [] => by intro nums t; simp
  | n :: l2 => by
    intro nums t
    rw [List.flatMap_cons, encNat, List.append_assoc, List.append_assoc]
    rw [decListAux_replicate]
    rw [List.cons_append, decListAux]
    rw [if_neg (by omega), if_pos rfl]
    simp only [List.nil_append, Nat.zero_add]
    rw [decListAux_flatMap l2]
    rw [List.append_assoc]
    rfl

theorem decList_encNatList (l t : List Nat) :
    decList (encNatList l ++ t) = some (l, t) := by
  rw [decList, encNatList, List.append_assoc, decListAux_flatMap]
  rw [List.cons_append, decListAux]
  rw [if_neg (by omega), if_neg (by omega), if_pos rfl, if_pos rfl]
  simp

theorem decList_encNatList_nil (l : List Nat) :
    decList (encNatList l) = some (l, []) := by
  have h := decList_encNatList l []
  simpa using h

theorem subtleDecrypt_encrypt (iv : List Nat) (key : CryptoKeyModel)
    (data : List Nat) :
    subtleDecrypt iv key (subtleEncrypt iv key data) = some data := by
  simp only [subtleEncrypt, subtleDecrypt, List.append_assoc, decList_encNatList,
    decList_encNatList_nil]
  simp

theorem subtleDecrypt_wrongKey (iv : List Nat) (key1 key2 : CryptoKeyModel)
    (data : List Nat) (h : key1.keyBytes ≠ key2.keyBytes) :
    subtleDecrypt iv key2 (subtleEncrypt iv key1 data) = none := by
  simp only [subtleEncrypt, subtleDecrypt, List.append_assoc, decList_encNatList,
    decList_encNatList_nil]
  simp [h]

theorem encNatList_bytes (l : List Nat) : ∀ b ∈ encNatList l, b < 256 := by
  intro b hb
  rw [encNatList] at hb
  rcases List.mem_append.1 hb with h | h
  · rcases List.mem_flatMap.1 h with ⟨n, _, hn⟩
    rw [encNat] at hn
    rcases List.mem_append.1 hn with h2 | h2
    · have := List.eq_of_mem_replicate h2
      omega
    · simp at h2
      omega
  · simp at h
    omega

theorem subtleEncrypt_bytes (iv : List Nat) (key : CryptoKeyModel) (data : List Nat) :
    ∀ b ∈ subtleEncrypt iv key data, b < 256 := by
  intro b hb
  rw [subtleEncrypt] at hb
  rcases List.mem_append.1 hb with h | h
  · rcases List.mem_append.1 h with h2 | h2
    · rcases List.mem_append.1 h2 with h3 | h3
      · exact encNatList_bytes _ b h3
      · exact encNatList_bytes _ b h3
    · exact encNatList_bytes _ b h2
  · exact encNatList_bytes _ b h

theorem randomBytes_lt (rng : Nat → Nat) (off n : Nat) :
    ∀ b ∈ randomBytes rng off n, b < 256 := by
  intro b hb
  rw [randomBytes] at hb
  rcases List.mem_map.1 hb with ⟨i, _, hi⟩
  omega

theorem randomBytes_length (rng : Nat → Nat) (off n : Nat) :
    (randomBytes rng off n).length = n := by
  rw [randomBytes]
  simp

theorem efjLoop_shape (sub : List Char) : ∀ (rest : List Char) (j : Nat) (depth : Int)
    (inS esc : Bool) (c : List Char) (p : Json),
    efjLoop sub j rest depth inS esc = some (c, p) →
    ∃ n, c = List.take n sub ∧ jsonParse c = some p := by
  intro rest
  induction rest with
  | nil =>
    intro j depth inS esc c p h
    rw [efjLoop] at h
    cases h
  | cons ch rest ih =>
    intro j depth inS esc c p h
    rw [efjLoop] at h
    by_cases h1 : esc
    · rw [if_pos h1] at h; exact ih _ _ _ _ _ _ h
    rw [if_neg h1] at h
    by_cases h2 : [ch] = ['\\', '\\']
    · rw [if_pos h2] at h; exact ih _ _ _ _ _ _ h
    rw [if_neg h2] at h
    by_cases h3 : ch = '"'
    · rw [if_pos h3] at h; exact ih _ _ _ _ _ _ h
    rw [if_neg h3] at h
    by_cases h4 : inS
    · rw [if_pos h4] at h; exact ih _ _ _ _ _ _ h
    rw [if_neg h4] at h
    simp only at h
    by_cases h5 : ch = '}'
    · rw [if_pos h5] at h
      by_cases h6 : (if ch = '{' then depth + 1 else depth) - 1 = 0
      · rw [if_pos h6] at h
        rcases hp : jsonParse (List.take (j + 1) sub) with _ | parsed
        · rw [hp] at h
          exact ih _ _ _ _ _ _ h
        · rw [hp] at h
          refine ⟨j + 1, ?_, ?_⟩
          · exact (Prod.mk.injEq _ _ _ _ ▸ Option.some.inj h).1.symm ▸ rfl
          · have hc : c = List.take (j + 1) sub := by
              have := Option.some.inj h
              exact (congrArg Prod.fst this).symm
            rw [hc, hp]
            have hpv : p = parsed := by
              have := Option.some.inj h
              exact (congrArg Prod.snd this).symm
            rw [hpv]
      · rw [if_neg h6] at h
        exact ih _ _ _ _ _ _ h
    · rw [if_neg h5] at h
      exact ih _ _ _ _ _ _ h

theorem efjLoop_allFail (sub : List Char)
    (hall : ∀ n, jsonParse (List.take n sub) = none) :
    ∀ (rest : List Char) (j : Nat) (depth : Int) (inS esc : Bool),
    efjLoop sub j rest depth inS esc = none := by
  intro rest
  induction rest with
  | nil => intro j depth inS esc; rw [efjLoop]
  | cons ch rest ih =>
    intro j depth inS esc
    rw [efjLoop]
    by_cases h1 : esc
    · rw [if_pos h1]; exact ih _ _ _ _
    rw [if_neg h1]
    by_cases h2 : [ch] = ['\\', '\\']
    · rw [if_pos h2]; exact ih _ _ _ _
    rw [if_neg h2]
    by_cases h3 : ch = '"'
    · rw [if_pos h3]; exact ih _ _ _ _
    rw [if_neg h3]
    by_cases h4 : inS
    · rw [if_pos h4]; exact ih _ _ _ _
    rw [if_neg h4]
    simp only
    by_cases h5 : ch = '}'
    · rw [if_pos h5]
      by_cases h6 : (if ch = '{' then depth + 1 else depth) - 1 = 0
      · rw [if_pos h6]
        rw [hall (j + 1)]
        exact ih _ _ _ _
      · rw [if_neg h6]
        exact ih _ _ _ _
    · rw [if_neg h5]
      exact ih _ _ _ _

theorem extractFirstJsonStr_no_brace (text : List Char) (h : ∀ c ∈ text, c ≠ '{') :
    extractFirstJsonStr text = none := by
  rw [extractFirstJsonStr]
  by_cases he : text = []
  · rw [if_pos he]
  rw [if_neg he]
  have hf : List.findIdx? (fun c => c = '{') text = none := by
    rw [List.findIdx?_eq_none_iff]
    intro x hx
    simp [h x hx]
  rw [hf]

theorem extractFirstJsonStr_allFail (text : List Char) (start : Nat)
    (hf : List.findIdx? (fun c => c = '{') text = some start)
    (hall : ∀ n, jsonParse (List.take n (List.drop start text)) = none) :
    extractFirstJsonStr text = none := by
  rw [extractFirstJsonStr]
  by_cases he : text = []
  · rw [if_pos he]
  rw [if_neg he, hf]
  exact efjLoop_allFail _ hall _ _ _ _ _

theorem extractFirstJsonStr_shape (text : List Char) (c : List Char) (p : Json)
    (h : extractFirstJsonStr text = some (c, p)) :
    ∃ start n, List.findIdx? (fun ch => ch = '{') text = some start ∧
      c = List.take n (List.drop start text) ∧ jsonParse c = some p := by
  rw [extractFirstJsonStr] at h
  by_cases he : text = []
  · rw [if_pos he] at h; cases h
  rw [if_neg he] at h
  rcases hf : List.findIdx? (fun ch => ch = '{') text with _ | start
  · rw [hf] at h; cases h
  · rw [hf] at h
    rcases efjLoop_shape _ _ _ _ _ _ _ _ h with ⟨n, hc, hp⟩
    exact ⟨start, n, rfl, hc, hp⟩

/-! ## Claim theorems -/

/-- Claim C1: for every plaintext API key `P`, passphrase `Q` and random
stream, decrypting the result of `encryptApiKey P Q` with the same
passphrase `Q` returns `P`. -/
theorem c1_decrypt_encrypt_roundtrip (P Q : List Char) (rng : Nat → Nat) :
    decryptApiKey (encryptApiKey P Q rng) Q = some P := by
  rw [encryptApiKey, decryptApiKey]
  simp only
  rw [base64_roundtrip _ (randomBytes_lt rng 0 16)]
  rw [base64_roundtrip _ (randomBytes_lt rng 16 12)]
  rw [base64_roundtrip _ (subtleEncrypt_bytes _ _ _)]
  rw [subtleDecrypt_encrypt]
  simp [utf8Decode_utf8Encode]

/-- Claim C2: decrypting `encryptApiKey P Q` with any passphrase
different from `Q` fails authentication (the rejected promise, `none`) —
it never returns garbage plaintext. -/
theorem c2_wrong_passphrase_fails (P Q Qp : List Char) (rng : Nat → Nat)
    (h : Qp ≠ Q) :
    decryptApiKey (encryptApiKey P Q rng) Qp = none := by
  rw [encryptApiKey, decryptApiKey]
  simp only
  rw [base64_roundtrip _ (randomBytes_lt rng 0 16)]
  rw [base64_roundtrip _ (randomBytes_lt rng 16 12)]
  rw [base64_roundtrip _ (subtleEncrypt_bytes _ _ _)]
  rw [subtleDecrypt_wrongKey]
  · rfl
  · simp only [deriveKeyFromPassphrase]
    intro he
    exact h (utf8Encode_inj he).symm

/-- Witness for C2 at concrete inputs: passphrases `a` and `b` differ,
and decryption with the wrong one fails. -/
theorem c2_wrong_passphrase_fails_witness :
    ("b".data : List Char) ≠ "a".data ∧
    decryptApiKey (encryptApiKey "key123".data "a".data fun _ => 0) "b".data
      = none :=
  ⟨by decide, c2_wrong_passphrase_fails _ _ _ _ (by decide)⟩

/-- Claim C3: when JSON extraction fails on all three escalation
attempts, the pipeline returns the raw fallback carrying attempt 1's
text verbatim, after exactly 3 endpoint calls. -/
theorem c3_raw_fallback (city food : List Char) (responses : Nat → HttpResponse)
    (t1 t2 t3 : Json)
    (h0 : callGeminiResult (responses 0) = Except.ok t1)
    (e1 : extractFirstJson t1 = none)
    (h1 : callGeminiResult (responses 1) = Except.ok t2)
    (e2 : extractFirstJson t2 = none)
    (h2 : callGeminiResult (responses 2) = Except.ok t3)
    (e3 : extractFirstJson t3 = none) :
    fetchRestaurantSuggestions city food responses =
      (Except.ok (FetchOutcome.rawFallback t1), 3) := by
  simp only [fetchRestaurantSuggestions, callGemini, h0, e1, h1, e2, h2, e3]

/-- Witness for C3: an endpoint that always answers with unparseable
text makes the pipeline return that first raw text after 3 calls. -/
theorem c3_raw_fallback_witness :
    fetchRestaurantSuggestions "Hyderabad, Telangana, India".data
      "Qubani ka Meetha".data (fun _ => respUnparseable) =
      (Except.ok (FetchOutcome.rawFallback (Json.str "no json here".data)), 3) :=
  c3_raw_fallback _ _ _ (Json.str "no json here".data)
    (Json.str "no json here".data) (Json.str "no json here".data)
    (by rfl) (by rfl) (by rfl) (by rfl) (by rfl) (by rfl)

/-- Claim C4: a non-success HTTP status on any attempt fails the whole
pipeline immediately — the error carries the status code and the body
truncated to at most 400 characters, and no further attempt is made
(the counter equals the index of the failing attempt). -/
theorem c4_transport_aborts (city food : List Char)
    (responses : Nat → HttpResponse) :
    (¬ resOk (responses 0) →
      fetchRestaurantSuggestions city food responses =
        (Except.error (JsError.transport (transportErrMsg (responses 0))), 1)) ∧
    (∀ t1, callGeminiResult (responses 0) = Except.ok t1 →
      extractFirstJson t1 = none → ¬ resOk (responses 1) →
      fetchRestaurantSuggestions city food responses =
        (Except.error (JsError.transport (transportErrMsg (responses 1))), 2)) ∧
    (∀ t1 t2, callGeminiResult (responses 0) = Except.ok t1 →
      extractFirstJson t1 = none →
      callGeminiResult (responses 1) = Except.ok t2 →
      extractFirstJson t2 = none → ¬ resOk (responses 2) →
      fetchRestaurantSuggestions city food responses =
        (Except.error (JsError.transport (transportErrMsg (responses 2))), 3)) ∧
    (∀ r : HttpResponse, (List.take 400 r.bodyText).length ≤ 400 ∧
      (r.bodyText = [] ∨ transportErrMsg r = "Gemini HTTP ".data ++ natLit r.status ++
        [' '] ++ r.statusText ++ (" — ".data ++ List.take 400 r.bodyText))) := by
  refine ⟨?_, ?_, ?_, ?_⟩
  · intro h
    simp only [fetchRestaurantSuggestions, callGemini, callGeminiResult, if_neg h]
  · intro t1 h0 e1 h
    simp only [fetchRestaurantSuggestions, callGemini, h0, e1]
    simp only [callGeminiResult, if_neg h]
  · intro t1 t2 h0 e1 h1 e2 h
    simp only [fetchRestaurantSuggestions, callGemini, h0, e1, h1, e2]
    simp only [callGeminiResult, if_neg h]
  · intro r
    constructor
    · simp [List.length_take]
    · by_cases hb : r.bodyText = []
      · exact Or.inl hb
      · refine Or.inr ?_
        rw [transportErrMsg, if_neg hb]

/-- Witness for C4: an HTTP 429 on the first attempt makes the pipeline
fail after exactly one call, with the status and body in the message. -/
theorem c4_transport_aborts_witness :
    fetchRestaurantSuggestions "Hyderabad".data "Biryani".data
      (fun _ => respHttp429) =
      (Except.error (JsError.transport
        "Gemini HTTP 429 Too Many Requests — rate limited".data), 1) :=
  (c4_transport_aborts _ _ _).1 (by decide)

/-- Claim C5: `extractFirstJson` is a total function of its input (its
model is a total Lean function, so it terminates and raises nothing);
on text with no brace, and on text whose every candidate slice starting
at the first brace is unparseable, it returns null. -/
theorem c5_extract_total :
    (∀ text : List Char, (∀ c ∈ text, c ≠ '{') →
      extractFirstJsonStr text = none) ∧
    (∀ (text : List Char) (start : Nat),
      List.findIdx? (fun c => c = '{') text = some start →
      (∀ n, jsonParse (List.take n (List.drop start text)) = none) →
      extractFirstJsonStr text = none) :=
  ⟨extractFirstJsonStr_no_brace, extractFirstJsonStr_allFail⟩

/-- Witness for C5 at concrete inputs: brace-free text, and text whose
single candidate start has no parseable slice. -/
theorem c5_extract_total_witness :
    extractFirstJsonStr "no braces here".data = none ∧
    extractFirstJsonStr "\x7boops".data = none :=
  ⟨c5_extract_total.1 _ (by decide),
   c5_extract_total.2 _ 0 (by rfl) fun n => by
     rcases Nat.lt_or_ge n 6 with h | h
     · interval_cases n <;> rfl
     · have hl : (List.drop 0 ("\x7boops".data)).length = 5 := rfl
       rw [List.take_of_length_le (by omega)]
       rfl⟩

/-- Claim C6 (code bug): the scanner is meant to honor backslash
escapes inside string literals, but the source compares the single
character `ch` against the two-character string (`ch === '\\\\'`), which
is always false, so the escape flag is never set and an escaped quote
terminates the string.  On `{"a":"\"}"}` the code returns null although
the whole text is one valid JSON object (so a scanner honoring escapes
would return it). -/
theorem c6_escape_never_fires :
    extractFirstJsonStr ("\x7b\"a\":\"\\\"\x7d\"\x7d").data = none ∧
    jsonParse ("\x7b\"a\":\"\\\"\x7d\"\x7d").data =
      some (Json.obj [("a".data, Json.str ('"' :: "\x7d".data))]) := by
  constructor <;> rfl

/-- Claim C7: on text containing `{"a": "b{c}d"}` the extractor returns
that whole object — the braces inside the string value do not perturb
depth counting. -/
theorem c7_brace_inside_string :
    extractFirstJsonStr ("xx \x7b\"a\": \"b\x7bc\x7dd\"\x7d yy").data =
      some (("\x7b\"a\": \"b\x7bc\x7dd\"\x7d").data,
        Json.obj [("a".data, Json.str "b\x7bc\x7dd".data)]) := by
  rfl

/-- Claim C8: every returned slice starts at the first brace (the
scanner never restarts at a later `{`); when every slice starting there
is unparseable the result is null; concretely, on `{oops} {"x":1}` the
result is null although the later standalone `{"x":1}` is valid JSON. -/
theorem c8_never_restarts :
    (∀ (text c : List Char) (p : Json), extractFirstJsonStr text = some (c, p) →
      ∃ start n, List.findIdx? (fun ch => ch = '{') text = some start ∧
        c = List.take n (List.drop start text)) ∧
    (∀ (text : List Char) (start : Nat),
      List.findIdx? (fun c => c = '{') text = some start →
      (∀ n, jsonParse (List.take n (List.drop start text)) = none) →
      extractFirstJsonStr text = none) ∧
    extractFirstJsonStr ("\x7boops\x7d \x7b\"x\":1\x7d").data = none ∧
    jsonParse ("\x7b\"x\":1\x7d").data =
      some (Json.obj [("x".data, Json.num ['1'])]) := by
  refine ⟨?_, extractFirstJsonStr_allFail, by rfl, by rfl⟩
  intro text c p h
  rcases extractFirstJsonStr_shape text c p h with ⟨start, n, hf, hc, _⟩
  exact ⟨start, n, hf, hc⟩

/-- Witness for C8: a successful extraction instantiating the
first-brace slice shape at a concrete input. -/
theorem c8_never_restarts_witness :
    ∃ start n,
      List.findIdx? (fun ch => ch = '{') ("pre \x7b\"x\":1\x7d post").data
        = some start ∧
      ("\x7b\"x\":1\x7d").data =
        List.take n (List.drop start ("pre \x7b\"x\":1\x7d post").data) :=
  c8_never_restarts.1 _ _ (Json.obj [("x".data, Json.num ['1'])]) (by rfl)

/-- Claim C9: every encryption uses a 16-byte salt and a 12-byte nonce
drawn from the random stream, derives the key with PBKDF2 parameters
iterations = 200000 (meeting the ≥ 200000 bound), SHA-256 and a 256-bit
AES-GCM key, and the stored ciphertext decrypts authenticately under
that derived key and nonce to the UTF-8 plaintext. -/
theorem c9_crypto_parameters (P Q : List Char) (rng : Nat → Nat) :
    (base64Decode (encryptApiKey P Q rng).salt).length = 16 ∧
    (base64Decode (encryptApiKey P Q rng).iv).length = 12 ∧
    (deriveKeyFromPassphrase Q
      (base64Decode (encryptApiKey P Q rng).salt)).iterations = 200000 ∧
    (deriveKeyFromPassphrase Q
      (base64Decode (encryptApiKey P Q rng).salt)).hashSha256 = true ∧
    (deriveKeyFromPassphrase Q
      (base64Decode (encryptApiKey P Q rng).salt)).keyLength = 256 ∧
    (deriveKeyFromPassphrase Q
      (base64Decode (encryptApiKey P Q rng).salt)).algAesGcm = true ∧
    subtleDecrypt (base64Decode (encryptApiKey P Q rng).iv)
      (deriveKeyFromPassphrase Q (base64Decode (encryptApiKey P Q rng).salt))
      (base64Decode (encryptApiKey P Q rng).ciphertext) = some (utf8Encode P) := by
  rw [encryptApiKey]
  simp only
  rw [base64_roundtrip _ (randomBytes_lt rng 0 16)]
  rw [base64_roundtrip _ (randomBytes_lt rng 16 12)]
  rw [base64_roundtrip _ (subtleEncrypt_bytes _ _ _)]
  refine ⟨randomBytes_length rng 0 16, randomBytes_length rng 16 12,
    rfl, rfl, rfl, rfl, ?_⟩
  rw [subtleDecrypt_encrypt]

/-- Claim C10 (implicit): extraction success is solely
JSON-parseability — whichever attempt's text first yields a parseable
object, the pipeline returns that parsed object with no schema
validation. -/
theorem c10_parse_only_success (city food : List Char)
    (responses : Nat → HttpResponse) :
    (∀ t1 c p, callGeminiResult (responses 0) = Except.ok t1 →
      extractFirstJson t1 = some (c, p) →
      fetchRestaurantSuggestions city food responses =
        (Except.ok (FetchOutcome.parsed p), 1)) ∧
    (∀ t1 t2 c p, callGeminiResult (responses 0) = Except.ok t1 →
      extractFirstJson t1 = none →
      callGeminiResult (responses 1) = Except.ok t2 →
      extractFirstJson t2 = some (c, p) →
      fetchRestaurantSuggestions city food responses =
        (Except.ok (FetchOutcome.parsed p), 2)) ∧
    (∀ t1 t2 t3 c p, callGeminiResult (responses 0) = Except.ok t1 →
      extractFirstJson t1 = none →
      callGeminiResult (responses 1) = Except.ok t2 →
      extractFirstJson t2 = none →
      callGeminiResult (responses 2) = Except.ok t3 →
      extractFirstJson t3 = some (c, p) →
      fetchRestaurantSuggestions city food responses =
        (Except.ok (FetchOutcome.parsed p), 3)) := by
  refine ⟨?_, ?_, ?_⟩
  · intro t1 c p h0 e1
    simp only [fetchRestaurantSuggestions, callGemini, h0, e1]
  · intro t1 t2 c p h0 e1 h1 e2
    simp only [fetchRestaurantSuggestions, callGemini, h0, e1, h1, e2]
  · intro t1 t2 t3 c p h0 e1 h1 e2 h2 e3
    simp only [fetchRestaurantSuggestions, callGemini, h0, e1, h1, e2, h2, e3]

/-- Witness for C10: a response whose text contains only `{}` — an
object lacking every schema field — is returned as the structured
result of attempt 1. -/
theorem c10_parse_only_success_witness :
    fetchRestaurantSuggestions "Paris".data "Croissant".data
      (fun _ => respEmptyObj) =
      (Except.ok (FetchOutcome.parsed (Json.obj [])), 1) :=
  (c10_parse_only_success _ _ _).1 (Json.str "ok \x7b\x7d done".data)
    ("\x7b\x7d".data) (Json.obj []) (by rfl) (by rfl)
